import Mathlib

/-!
Shallow embedding of the color/pixel encoding engine of the `epd-waveshare`
fork (files `src/color.rs`, `src/epd_simulator/mod.rs`,
`src/epd7in5_yrd0750ryf665f60/mod.rs`).

Machine integers (`u8`, `u16`, `u32`, `usize`) are embedded as `Nat`;
`!x` on `u8` is embedded as `255 ^^^ x` (identical for `x < 256`, which holds
for every complemented value in this code), casts `as u8` as `% 256`, and
Rust panics / diverging calls as `Option` with `none` for the panic.
-/

/-- Error raised when trying to parse a `u8` to one of the color types
(`OutOfColorRangeParseError(u8)` in `src/color.rs`). -/
structure OutOfColorRangeParseError where
  val : Nat
deriving DecidableEq, Repr

/-- The two-variant black/white color enum `Color` of `src/color.rs`. -/
inductive Color where
  | Black
  | White
deriving DecidableEq, Repr

/-- The black/white/chromatic enum `TriColor` of `src/color.rs`. -/
inductive TriColor where
  | Black
  | White
  | Chromatic
deriving DecidableEq, Repr

/-- The black/white/red/yellow enum `QuadColor` of `src/color.rs`. -/
inductive QuadColor where
  | Black
  | White
  | Red
  | Yellow
deriving DecidableEq, Repr

/-- The 7-color enum `OctColor` of `src/color.rs` (discriminants 0x00..0x07). -/
inductive OctColor where
  | Black
  | White
  | Green
  | Blue
  | Red
  | Yellow
  | Orange
  | HiZ
deriving DecidableEq, Repr

/-- `Color::bitmask` of `src/color.rs`: mask excluding the pixel from the
byte, and the bits setting its color. -/
def Color.bitmask (c : Color) (_bwrbit : Bool) (pos : Nat) : Nat × Nat :=
  let bit := 0x80 >>> (pos % 8)
  match c with
  | Color.Black => (255 ^^^ bit, 0)
  | Color.White => (255 ^^^ bit, bit)

/-- `Color::from_bits` of `src/color.rs`. -/
def Color.from_bits (bits : Nat) : Color :=
  match bits with
  | 0x00 => Color.Black
  | _ => Color.White

/-- `TriColor::bitmask` of `src/color.rs`; the second component is the
`u16` whose low byte targets the black/white plane and whose high byte
targets the chromatic plane. -/
def TriColor.bitmask (c : TriColor) (bwrbit : Bool) (pos : Nat) : Nat × Nat :=
  let bit := 0x80 >>> (pos % 8)
  match c with
  | TriColor.Black => (255 ^^^ bit, 0)
  | TriColor.White => (255 ^^^ bit, bit)
  | TriColor.Chromatic =>
      (255 ^^^ bit, if bwrbit then bit <<< 8 else (bit <<< 8) ||| bit)

/-- `TriColor::from_bits` of `src/color.rs`. -/
def TriColor.from_bits (bits : Nat) : TriColor :=
  match bits with
  | 0x00 => TriColor.Black
  | 0x01 => TriColor.Chromatic
  | _ => TriColor.White

/-- `QuadColor::bitmask` of `src/color.rs`: two bits per pixel, four pixels
per byte, shift `(pos % 4) * 2`; black `0b00`, white `0b01`, yellow `0b10`,
red `0b11`. -/
def QuadColor.bitmask (c : QuadColor) (_bwrbit : Bool) (pos : Nat) : Nat × Nat :=
  let shift := (pos % 4) * 2
  let mask := 255 ^^^ (0x03 <<< shift)
  let color_bits :=
    match c with
    | QuadColor.Black => 0b00
    | QuadColor.White => 0b01
    | QuadColor.Yellow => 0b10
    | QuadColor.Red => 0b11
  let value := color_bits <<< shift
  (mask, value)

/-- `QuadColor::from_bits` of `src/color.rs`; note the literal `0x11`
(decimal 17) for red. -/
def QuadColor.from_bits (bits : Nat) : QuadColor :=
  match bits with
  | 0x01 => QuadColor.White
  | 0x02 => QuadColor.Yellow
  | 0x11 => QuadColor.Red
  | _ => QuadColor.Black

/-- `OctColor::get_nibble` of `src/color.rs` (`self as u8`). -/
def OctColor.get_nibble (c : OctColor) : Nat :=
  match c with
  | OctColor.Black => 0x00
  | OctColor.White => 0x01
  | OctColor.Green => 0x02
  | OctColor.Blue => 0x03
  | OctColor.Red => 0x04
  | OctColor.Yellow => 0x05
  | OctColor.Orange => 0x06
  | OctColor.HiZ => 0x07

/-- `OctColor::bitmask` of `src/color.rs`: four bits per pixel, even
positions in the high nibble, odd positions in the low nibble. -/
def OctColor.bitmask (c : OctColor) (_bwrbit : Bool) (pos : Nat) : Nat × Nat :=
  let mask := 255 ^^^ (0xF0 >>> ((pos % 2) * 4))
  let bits := c.get_nibble
  (mask, if pos % 2 == 1 then bits else bits <<< 4)

/-- `OctColor::from_bits` of `src/color.rs` (every unlisted pattern falls
back to red). -/
def OctColor.from_bits (bits : Nat) : OctColor :=
  match bits with
  | 0x00 => OctColor.Black
  | 0x01 => OctColor.White
  | 0x02 => OctColor.Yellow
  | _ => OctColor.Red

/-- `OctColor::colors_byte` of `src/color.rs`: first color in the high
nibble, second in the low nibble. -/
def OctColor.colors_byte (a b : OctColor) : Nat :=
  (a.get_nibble <<< 4) ||| b.get_nibble

/-- `OctColor::from_nibble` of `src/color.rs`: matches on `nibble & 0xf`
and carries the matched (already masked) value in the error case. -/
def OctColor.from_nibble (nibble : Nat) : Except OutOfColorRangeParseError OctColor :=
  match nibble &&& 0xf with
  | 0x00 => Except.ok OctColor.Black
  | 0x01 => Except.ok OctColor.White
  | 0x02 => Except.ok OctColor.Green
  | 0x03 => Except.ok OctColor.Blue
  | 0x04 => Except.ok OctColor.Red
  | 0x05 => Except.ok OctColor.Yellow
  | 0x06 => Except.ok OctColor.Orange
  | 0x07 => Except.ok OctColor.HiZ
  | e => Except.error ⟨e⟩

/-- `OctColor::split_byte` of `src/color.rs`: parses the low then the high
nibble and returns `(high, low)`. -/
def OctColor.split_byte (byte : Nat) : Except OutOfColorRangeParseError (OctColor × OctColor) := do
  let low ← OctColor.from_nibble (byte &&& 0xf)
  let high ← OctColor.from_nibble ((byte >>> 4) &&& 0xf)
  return (high, low)

/-- The `ColorType` trait of `src/color.rs`. -/
class ColorType (α : Type) where
  BITS_PER_PIXEL_PER_BUFFER : Nat
  BUFFER_COUNT : Nat
  bitmask : α → Bool → Nat → Nat × Nat
  from_bits : Nat → α

instance : ColorType Color :=
  ⟨1, 1, Color.bitmask, Color.from_bits⟩

instance : ColorType TriColor :=
  ⟨1, 2, TriColor.bitmask, TriColor.from_bits⟩

instance : ColorType QuadColor :=
  ⟨2, 1, QuadColor.bitmask, QuadColor.from_bits⟩

instance : ColorType OctColor :=
  ⟨4, 1, OctColor.bitmask, OctColor.from_bits⟩

/-- Modelled from the spec: the write-path application of a `(mask, bits)`
pair to one buffer byte, `byte = (byte & mask) | (bits as byte)` (spec §2,
§4.2; the generic buffer writer `src/graphics.rs` is not under `src/`). -/
def apply_mask_bits (byte : Nat) (mb : Nat × Nat) : Nat :=
  (byte &&& mb.1) ||| (mb.2 &&& 255)

/-- Modelled from the spec: the write-path application of the high byte of
`bits` to the second-plane byte of a dual-plane family (spec §4.2). -/
def apply_mask_bits_hi (byte : Nat) (mb : Nat × Nat) : Nat :=
  (byte &&& mb.1) ||| (mb.2 >>> 8)

/-- Modelled from the spec: the read-path extraction of one pixel's bit
field from a buffer byte via the complement of the write mask (spec §4.3). -/
def extract_field (byte mask : Nat) : Nat :=
  byte &&& (255 ^^^ mask)

/-- The per-pixel body of `EpdSimulator::update_simulator_region`
(`src/epd_simulator/mod.rs`): reads
`buffer[pos * BITS_PER_PIXEL_PER_BUFFER / 8] & mask` where
`(mask, _) = COLOR::bitmask(background_color, false, pos)`, and decodes it
with `from_bits`; the out-of-range index (a Rust panic) is `none`. -/
def update_simulator_pixel {COLOR : Type} [ColorType COLOR]
    (buffer : List Nat) (background_color : COLOR) (pos : Nat) : Option COLOR :=
  let mb := ColorType.bitmask background_color false pos
  match buffer[pos * ColorType.BITS_PER_PIXEL_PER_BUFFER (α := COLOR) / 8]? with
  | some byte => some (ColorType.from_bits (byte &&& mb.1))
  | none => none

/-- The `buffer_size` computation of `EpdSimulator::new_with_size`
(`src/epd_simulator/mod.rs`):
`(width * height) as usize / 8 * COLOR::BITS_PER_PIXEL_PER_BUFFER`. -/
def EpdSimulator.buffer_size (COLOR : Type) [ColorType COLOR]
    (width height : Nat) : Nat :=
  width * height / 8 * ColorType.BITS_PER_PIXEL_PER_BUFFER (α := COLOR)

/-- `WIDTH` of `src/epd7in5_yrd0750ryf665f60/mod.rs`. -/
def Epd7in5.WIDTH : Nat := 800

/-- `HEIGHT` of `src/epd7in5_yrd0750ryf665f60/mod.rs`. -/
def Epd7in5.HEIGHT : Nat := 480

/-- `NUM_DISPLAY_BITS` of `src/epd7in5_yrd0750ryf665f60/mod.rs`:
`WIDTH as usize / 4 * HEIGHT as usize`. -/
def Epd7in5.NUM_DISPLAY_BITS : Nat := Epd7in5.WIDTH / 4 * Epd7in5.HEIGHT

/-- The buffer handling of `Epd7in5::update_frame`
(`src/epd7in5_yrd0750ryf665f60/mod.rs`): the bytes sent are
`&buffer[..NUM_DISPLAY_BITS]`; the slice panics (`none`) when the buffer is
shorter than `NUM_DISPLAY_BITS`. -/
def Epd7in5.update_frame_data (buffer : List Nat) : Option (List Nat) :=
  if Epd7in5.NUM_DISPLAY_BITS ≤ buffer.length then
    some (buffer.take Epd7in5.NUM_DISPLAY_BITS)
  else
    none

/-- The buffer handling of `EpdSimulator::update_frame`
(`src/epd_simulator/mod.rs`): `self.buffer.copy_from_slice(buffer)` panics
(`none`) unless the supplied buffer has exactly the internal length. -/
def EpdSimulator.update_frame_data (internal_len : Nat) (buffer : List Nat) :
    Option (List Nat) :=
  if buffer.length = internal_len then some buffer else none

/-- The nine data bytes of the `PartialWindow` command assembled by
`Epd7in5::update_partial_frame2` (`src/epd7in5_yrd0750ryf665f60/mod.rs`).
`u32` shifts and divisions are exact on `Nat` here; `as u8` is `% 256`; the
two `u32` subtractions are embedded as `Nat` subtraction, which agrees with
the source whenever `8 ≤ x + width` and `1 ≤ y + height` (the hypotheses
used by the theorems below). -/
def Epd7in5.partial_window_payload (x y width height : Nat) : List Nat :=
  let hrst_upper := ((x / 8) % 256) >>> 5
  let hrst_lower := ((x / 8) * 8) % 256
  let hred_upper := (((x + width) / 8 - 1) % 256) >>> 5
  let hred_lower := ((((x + width) / 8 - 1) * 8) % 256) ||| 0b111
  let vrst_upper := (y >>> 8) % 256
  let vrst_lower := y % 256
  let vred_upper := ((y + height - 1) >>> 8) % 256
  let vred_lower := (y + height - 1) % 256
  [hrst_upper, hrst_lower, hred_upper, hred_lower,
   vrst_upper, vrst_lower, vred_upper, vred_lower, 0x01]

/-- The buffer handling of `Epd7in5::update_partial_frame2`
(`src/epd7in5_yrd0750ryf665f60/mod.rs`): the length check
`buffer.len() as u32 != width / 8 * height` has an empty body
(`// TODO panic or error` in the source), after which the command payload is
sent followed by `&buffer[..buffer.len() / 2]`; no input makes it panic. -/
def Epd7in5.update_partial_frame2_model (buffer : List Nat)
    (x y width height : Nat) : Option (List Nat × List Nat) :=
  some (Epd7in5.partial_window_payload x y width height,
        buffer.take (buffer.length / 2))

/-- The trait method `Epd7in5::update_partial_frame`
(`src/epd7in5_yrd0750ryf665f60/mod.rs`): its body is the diverging
`unimplemented` macro, i.e. every call panics (`none`). -/
def Epd7in5.update_partial_frame (_buffer : List Nat)
    (_x _y _width _height : Nat) : Option Unit :=
  none

instance {ε α : Type} [DecidableEq ε] [DecidableEq α] : DecidableEq (Except ε α) := fun x y =>
  match x, y with
  | Except.ok a, Except.ok b =>
      if h : a = b then Decidable.isTrue (by rw [h])
      else Decidable.isFalse (by intro hc; injection hc; contradiction)
  | Except.error a, Except.error b =>
      if h : a = b then Decidable.isTrue (by rw [h])
      else Decidable.isFalse (by intro hc; injection hc; contradiction)
  | Except.ok _, Except.error _ => Decidable.isFalse (by intro hc; exact Except.noConfusion hc)
  | Except.error _, Except.ok _ => Decidable.isFalse (by intro hc; exact Except.noConfusion hc)

/-! ## Helper lemmas -/

theorem extract_core (B m t f : Nat) (h1 : m &&& f = 0) (h2 : t &&& f = t) :
    ((B &&& m) ||| t) &&& f = t := by
  apply Nat.eq_of_testBit_eq
  intro i
  have h1' := congrArg (fun n => n.testBit i) h1
  have h2' := congrArg (fun n => n.testBit i) h2
  simp only [Nat.testBit_land, Nat.testBit_lor, Nat.zero_testBit] at h1' h2'
  simp only [Nat.testBit_land, Nat.testBit_lor]
  cases hb : B.testBit i <;> cases hm : m.testBit i <;>
    cases ht : t.testBit i <;> cases hf : f.testBit i <;> simp_all

theorem preserve_core (B m t f : Nat) (h1 : m &&& f = f) (h2 : t &&& f = 0) :
    ((B &&& m) ||| t) &&& f = B &&& f := by
  apply Nat.eq_of_testBit_eq
  intro i
  have h1' := congrArg (fun n => n.testBit i) h1
  have h2' := congrArg (fun n => n.testBit i) h2
  simp only [Nat.testBit_land, Nat.testBit_lor, Nat.zero_testBit] at h1' h2'
  simp only [Nat.testBit_land, Nat.testBit_lor]
  cases hb : B.testBit i <;> cases hm : m.testBit i <;>
    cases ht : t.testBit i <;> cases hf : f.testBit i <;> simp_all

theorem color_bit_facts (r : Nat) (hr : r < 8) :
    ((255 ^^^ (0x80 >>> r)) &&& (0x80 >>> r) = 0)
  ∧ ((0x80 >>> r) &&& 255 = 0x80 >>> r)
  ∧ (Color.from_bits (0x80 >>> r) = Color.White) := by
  interval_cases r <;> exact ⟨by decide, by decide, by decide⟩

theorem color_roundtrip_aux (c : Color) (b : Bool) (p B : Nat) :
    Color.from_bits (extract_field (apply_mask_bits B (Color.bitmask c b p))
      (Color.bitmask c b p).1) = c := by
  have hp : p % 8 < 8 := Nat.mod_lt _ (by norm_num)
  have key := color_bit_facts (p % 8) hp
  unfold extract_field apply_mask_bits
  cases c <;> simp only [Color.bitmask, Nat.xor_cancel_left]
  · rw [extract_core B _ _ _ key.1 (by rw [Nat.zero_and, Nat.zero_and])]
    decide
  · rw [key.2.1, extract_core B _ _ _ key.1 (Nat.and_self _)]
    exact key.2.2

theorem color_mask_excl (c c' : Color) (b b' : Bool) (p q B : Nat) (h : p % 8 ≠ q % 8) :
    extract_field (apply_mask_bits B (Color.bitmask c b p)) (Color.bitmask c' b' q).1
      = extract_field B (Color.bitmask c' b' q).1 := by
  have hp : p % 8 < 8 := Nat.mod_lt _ (by norm_num)
  have hq : q % 8 < 8 := Nat.mod_lt _ (by norm_num)
  unfold extract_field apply_mask_bits
  simp only [Color.bitmask]
  cases c <;> cases c' <;> simp only [] <;>
    (generalize hr1 : p % 8 = r1 at *) <;>
    (generalize hr2 : q % 8 = r2 at *) <;>
    (interval_cases r1 <;> interval_cases r2 <;>
      first
        | exact absurd rfl h
        | exact preserve_core _ _ _ _ (by decide) (by decide))

theorem quad_mask_excl (c c' : QuadColor) (b b' : Bool) (p q B : Nat) (h : p % 4 ≠ q % 4) :
    extract_field (apply_mask_bits B (QuadColor.bitmask c b p)) (QuadColor.bitmask c' b' q).1
      = extract_field B (QuadColor.bitmask c' b' q).1 := by
  have hp : p % 4 < 4 := Nat.mod_lt _ (by norm_num)
  have hq : q % 4 < 4 := Nat.mod_lt _ (by norm_num)
  unfold extract_field apply_mask_bits
  simp only [QuadColor.bitmask]
  cases c <;> cases c' <;> simp only [] <;>
    (generalize hr1 : p % 4 = r1 at *) <;>
    (generalize hr2 : q % 4 = r2 at *) <;>
    (interval_cases r1 <;> interval_cases r2 <;>
      first
        | exact absurd rfl h
        | exact preserve_core _ _ _ _ (by decide) (by decide))

theorem oct_mask_excl (c c' : OctColor) (b b' : Bool) (p q B : Nat) (h : p % 2 ≠ q % 2) :
    extract_field (apply_mask_bits B (OctColor.bitmask c b p)) (OctColor.bitmask c' b' q).1
      = extract_field B (OctColor.bitmask c' b' q).1 := by
  have hp : p % 2 < 2 := Nat.mod_lt _ (by norm_num)
  have hq : q % 2 < 2 := Nat.mod_lt _ (by norm_num)
  unfold extract_field apply_mask_bits
  simp only [OctColor.bitmask]
  cases c <;> cases c' <;> simp only [OctColor.get_nibble] <;>
    (generalize hr1 : p % 2 = r1 at *) <;>
    (generalize hr2 : q % 2 = r2 at *) <;>
    (interval_cases r1 <;> interval_cases r2 <;>
      first
        | exact absurd rfl h
        | exact preserve_core _ _ _ _ (by decide) (by decide))

theorem tri_mask_excl (c c' : TriColor) (b b' : Bool) (p q B1 B2 : Nat) (h : p % 8 ≠ q % 8) :
    (extract_field (apply_mask_bits B1 (TriColor.bitmask c b p)) (TriColor.bitmask c' b' q).1
      = extract_field B1 (TriColor.bitmask c' b' q).1)
  ∧ (extract_field (apply_mask_bits_hi B2 (TriColor.bitmask c b p)) (TriColor.bitmask c' b' q).1
      = extract_field B2 (TriColor.bitmask c' b' q).1) := by
  have hp : p % 8 < 8 := Nat.mod_lt _ (by norm_num)
  have hq : q % 8 < 8 := Nat.mod_lt _ (by norm_num)
  unfold extract_field apply_mask_bits apply_mask_bits_hi
  simp only [TriColor.bitmask]
  cases c <;> cases c' <;> (try cases b) <;> simp only [] <;>
    (generalize hr1 : p % 8 = r1 at *) <;>
    (generalize hr2 : q % 8 = r2 at *) <;>
    (interval_cases r1 <;> interval_cases r2 <;>
      first
        | exact absurd rfl h
        | exact ⟨preserve_core _ _ _ _ (by decide) (by decide),
                 preserve_core _ _ _ _ (by decide) (by decide)⟩)

theorem mul8_or_seven (m : Nat) (h : m < 32) : (8 * m) ||| 7 = 8 * m + 7 := by
  interval_cases m <;> decide
/-- C1 (amended): the apply-extract-decode round trip of spec §8 is the
identity for the monochrome `Color` family at every variant, position, flag
and initial byte; for `TriColor`, `QuadColor` and `OctColor` the `from_bits`
table does not invert `bitmask` (chromatic, red and green are lost). -/
theorem roundtrip_color_identity :
    (∀ (c : Color) (b : Bool) (p B : Nat),
      Color.from_bits (extract_field (apply_mask_bits B (Color.bitmask c b p))
        (Color.bitmask c b p).1) = c)
  ∧ TriColor.from_bits (extract_field (apply_mask_bits 0x00
      (TriColor.bitmask TriColor.Chromatic true 0))
      (TriColor.bitmask TriColor.Chromatic true 0).1) ≠ TriColor.Chromatic
  ∧ QuadColor.from_bits (extract_field (apply_mask_bits 0x00
      (QuadColor.bitmask QuadColor.Red false 0))
      (QuadColor.bitmask QuadColor.Red false 0).1) ≠ QuadColor.Red
  ∧ OctColor.from_bits (extract_field (apply_mask_bits 0x00
      (OctColor.bitmask OctColor.Green false 0))
      (OctColor.bitmask OctColor.Green false 0).1) ≠ OctColor.Green :=
  ⟨color_roundtrip_aux, by decide, by decide, by decide⟩

/-- C1 counterexample: writing `QuadColor::Red` at position 0 into a zero
byte and decoding the extracted two-bit field yields black, not red. -/
theorem quad_red_roundtrip_fails :
    QuadColor.from_bits (extract_field (apply_mask_bits 0x00
      (QuadColor.bitmask QuadColor.Red false 0))
      (QuadColor.bitmask QuadColor.Red false 0).1) = QuadColor.Black
  ∧ QuadColor.Black ≠ QuadColor.Red := by
  exact ⟨by decide, by decide⟩

/-- C2: the simulator read path masks the buffer byte with the write mask
itself (which clears the pixel's own bits) instead of its complement, and
never reads a second plane: a monochrome byte holding a white pixel 0
(`0x80`) is decoded as black, while extraction via the complement of the
write mask decodes white. -/
theorem simulator_read_uses_write_mask :
    update_simulator_pixel
      [apply_mask_bits 0x00 (Color.bitmask Color.White false 0)] Color.White 0
      = some Color.Black
  ∧ Color.from_bits (extract_field
      (apply_mask_bits 0x00 (Color.bitmask Color.White false 0))
      (Color.bitmask Color.White false 0).1) = Color.White := by
  exact ⟨by decide, by decide⟩

/-- C3: applying `bitmask(c, bwrbit, p)` to a byte changes only pixel `p`'s
bit field: for every family, every other pixel `q` packed into the same byte
(different residue) keeps its exact bit field, on both planes for
`TriColor`. -/
theorem bitmask_mask_exclusivity :
    (∀ (c c' : Color) (b b' : Bool) (p q B : Nat), p % 8 ≠ q % 8 →
      extract_field (apply_mask_bits B (Color.bitmask c b p)) (Color.bitmask c' b' q).1
        = extract_field B (Color.bitmask c' b' q).1)
  ∧ (∀ (c c' : TriColor) (b b' : Bool) (p q B1 B2 : Nat), p % 8 ≠ q % 8 →
      (extract_field (apply_mask_bits B1 (TriColor.bitmask c b p)) (TriColor.bitmask c' b' q).1
        = extract_field B1 (TriColor.bitmask c' b' q).1)
      ∧ (extract_field (apply_mask_bits_hi B2 (TriColor.bitmask c b p)) (TriColor.bitmask c' b' q).1
        = extract_field B2 (TriColor.bitmask c' b' q).1))
  ∧ (∀ (c c' : QuadColor) (b b' : Bool) (p q B : Nat), p % 4 ≠ q % 4 →
      extract_field (apply_mask_bits B (QuadColor.bitmask c b p)) (QuadColor.bitmask c' b' q).1
        = extract_field B (QuadColor.bitmask c' b' q).1)
  ∧ (∀ (c c' : OctColor) (b b' : Bool) (p q B : Nat), p % 2 ≠ q % 2 →
      extract_field (apply_mask_bits B (OctColor.bitmask c b p)) (OctColor.bitmask c' b' q).1
        = extract_field B (OctColor.bitmask c' b' q).1) :=
  ⟨color_mask_excl, tri_mask_excl, quad_mask_excl, oct_mask_excl⟩

theorem bitmask_mask_exclusivity_witness :
    ((0 : Nat) % 8 ≠ 1 % 8
      ∧ extract_field (apply_mask_bits 0xAA (Color.bitmask Color.White true 0))
          (Color.bitmask Color.Black false 1).1
        = extract_field 0xAA (Color.bitmask Color.Black false 1).1)
  ∧ ((0 : Nat) % 8 ≠ 1 % 8
      ∧ ((extract_field (apply_mask_bits 0x55 (TriColor.bitmask TriColor.Chromatic false 0))
            (TriColor.bitmask TriColor.White true 1).1
          = extract_field 0x55 (TriColor.bitmask TriColor.White true 1).1)
        ∧ (extract_field (apply_mask_bits_hi 0x33 (TriColor.bitmask TriColor.Chromatic false 0))
            (TriColor.bitmask TriColor.White true 1).1
          = extract_field 0x33 (TriColor.bitmask TriColor.White true 1).1)))
  ∧ ((0 : Nat) % 4 ≠ 1 % 4
      ∧ extract_field (apply_mask_bits 0xC3 (QuadColor.bitmask QuadColor.Red true 0))
          (QuadColor.bitmask QuadColor.Yellow false 1).1
        = extract_field 0xC3 (QuadColor.bitmask QuadColor.Yellow false 1).1)
  ∧ ((0 : Nat) % 2 ≠ 1 % 2
      ∧ extract_field (apply_mask_bits 0x5A (OctColor.bitmask OctColor.Orange true 0))
          (OctColor.bitmask OctColor.Blue false 1).1
        = extract_field 0x5A (OctColor.bitmask OctColor.Blue false 1).1) :=
  ⟨⟨by decide, bitmask_mask_exclusivity.1 Color.White Color.Black true false 0 1 0xAA (by decide)⟩,
   ⟨by decide, bitmask_mask_exclusivity.2.1 TriColor.Chromatic TriColor.White false true 0 1 0x55 0x33 (by decide)⟩,
   ⟨by decide, bitmask_mask_exclusivity.2.2.1 QuadColor.Red QuadColor.Yellow true false 0 1 0xC3 (by decide)⟩,
   ⟨by decide, bitmask_mask_exclusivity.2.2.2 OctColor.Orange OctColor.Blue true false 0 1 0x5A (by decide)⟩⟩

/-- C5: the decode table of `QuadColor::from_bits` maps the literal `0x11`
(decimal 17) to red, while the encode table of `QuadColor::bitmask` writes
`0b11` (decimal 3, shifted into the pixel's field) for red. -/
theorem quad_red_encode_decode_tables :
    QuadColor.from_bits 0x11 = QuadColor.Red
  ∧ (∀ (b : Bool) (p : Nat),
      (QuadColor.bitmask QuadColor.Red b p).2 = 0b11 <<< ((p % 4) * 2)) :=
  ⟨rfl, fun _ _ => rfl⟩

/-- C6: packing any two octal colors with `colors_byte` (first color in the
high nibble) and splitting the byte with `split_byte` recovers the pair in
order. -/
theorem oct_colors_byte_split_byte_roundtrip :
    ∀ a b : OctColor,
      OctColor.split_byte (OctColor.colors_byte a b) = Except.ok (a, b) := by
  intro a b
  cases a <;> cases b <;> rfl

/-- C10: the trait method `Epd7in5::update_partial_frame` panics
(`unimplemented`) on every input. -/
theorem update_partial_frame_always_none :
    ∀ (buffer : List Nat) (x y width height : Nat),
      Epd7in5.update_partial_frame buffer x y width height = none :=
  fun _ _ _ _ _ => rfl

/-- C9: `Epd7in5::update_partial_frame2` does not reject an undersized
buffer: with `width = 32`, `height = 8` its own required length is
`32 / 8 * 8 = 32`, yet a 10-byte buffer is processed successfully
(the empty length check is a TODO in the source) and half of the undersized
buffer is transmitted; by contrast `Epd7in5::update_frame` and
`EpdSimulator::update_frame` do panic on undersized buffers. -/
theorem update_partial_frame2_accepts_undersized :
    (List.replicate 10 0).length ≠ 32 / 8 * 8
  ∧ Epd7in5.update_partial_frame2_model (List.replicate 10 0) 0 0 32 8
      = some (Epd7in5.partial_window_payload 0 0 32 8, List.replicate 5 0)
  ∧ Epd7in5.update_frame_data (List.replicate 10 0) = none
  ∧ EpdSimulator.update_frame_data 48000 (List.replicate 10 0) = none := by
  refine ⟨by decide, by decide, ?_, by decide⟩
  unfold Epd7in5.update_frame_data
  decide

/-- C4 counterexample: the length computed by `new_with_size` is
`(W*H)/8 * b`, not `ceil(W*H*b*n/8)`: for the monochrome family at 3x3 it
gives 1 byte where the ceiling formula gives 2, and for the dual-plane
`TriColor` family (b = 1, n = 2) at 800x480 it gives 48000 where the formula
gives 96000. -/
theorem buffer_size_not_ceil :
    EpdSimulator.buffer_size Color 3 3 ≠ (3 * 3 * 1 * 1 + 7) / 8
  ∧ EpdSimulator.buffer_size TriColor 800 480 ≠ (800 * 480 * 1 * 2 + 7) / 8 := by
  exact ⟨by decide, by decide⟩

/-- C4 (amended): the frame-buffer length computed at creation time is
`(W*H)/8 * BITS_PER_PIXEL_PER_BUFFER` (floor division, `BUFFER_COUNT`
ignored); when `8 ∣ W*H` this equals `ceil(W*H*b*1/8)`, and the two
spot-checks hold: monochrome 800x480 gives 48000 bytes and quad-color
800x480 gives 96000 bytes. -/
theorem buffer_size_floor_formula :
    (∀ (COLOR : Type) (inst : ColorType COLOR) (W H : Nat), 8 ∣ W * H →
      EpdSimulator.buffer_size COLOR W H
        = (W * H * ColorType.BITS_PER_PIXEL_PER_BUFFER (α := COLOR) * 1 + 7) / 8)
  ∧ EpdSimulator.buffer_size Color 800 480 = 48000
  ∧ EpdSimulator.buffer_size QuadColor 800 480 = 96000 := by
  refine ⟨?_, by decide, by decide⟩
  intro COLOR inst W H h
  obtain ⟨k, hk⟩ := h
  unfold EpdSimulator.buffer_size
  rw [hk]
  have h1 : 8 * k / 8 = k := by omega
  rw [h1]
  have h2 : 8 * k * ColorType.BITS_PER_PIXEL_PER_BUFFER (α := COLOR) * 1
      = 8 * (k * ColorType.BITS_PER_PIXEL_PER_BUFFER (α := COLOR)) := by ring
  rw [h2]
  omega

theorem buffer_size_floor_formula_witness :
    (8 ∣ 800 * 480)
  ∧ EpdSimulator.buffer_size Color 800 480
      = (800 * 480 * ColorType.BITS_PER_PIXEL_PER_BUFFER (α := Color) * 1 + 7) / 8 :=
  ⟨by decide, buffer_size_floor_formula.1 Color inferInstance 800 480 (by decide)⟩

/-- C7 counterexample: `OctColor::from_nibble` masks its argument with
`0xf` before matching, so the out-of-range input 16 is parsed as
`Ok(Black)` instead of returning an out-of-range error carrying 16. -/
theorem from_nibble_sixteen_ok :
    OctColor.from_nibble 16 = Except.ok OctColor.Black
  ∧ OctColor.from_nibble 16 ≠ Except.error ⟨16⟩ := by
  exact ⟨by decide, by decide⟩

/-- C7 (amended): `from_nibble` inspects only the low nibble of its input:
when `v &&& 0xf` is 8..15 it returns the out-of-range error carrying
`v &&& 0xf` (not `v` itself), and when `v &&& 0xf` is 0..7 it returns `Ok`
of the color whose nibble encoding is `v &&& 0xf`. -/
theorem from_nibble_low_nibble_only (v : Nat) :
    (8 ≤ v &&& 0xf → OctColor.from_nibble v = Except.error ⟨v &&& 0xf⟩)
  ∧ (v &&& 0xf < 8 → ∃ c : OctColor,
      OctColor.from_nibble v = Except.ok c ∧ c.get_nibble = v &&& 0xf) := by
  have hv : v &&& 0xf < 16 := Nat.lt_of_le_of_lt Nat.and_le_right (by norm_num)
  unfold OctColor.from_nibble
  generalize v &&& 0xf = r at *
  interval_cases r <;> constructor <;> intro h
  case _ => exact absurd h (by decide)
  case _ => exact ⟨OctColor.Black, rfl, rfl⟩
  case _ => exact absurd h (by decide)
  case _ => exact ⟨OctColor.White, rfl, rfl⟩
  case _ => exact absurd h (by decide)
  case _ => exact ⟨OctColor.Green, rfl, rfl⟩
  case _ => exact absurd h (by decide)
  case _ => exact ⟨OctColor.Blue, rfl, rfl⟩
  case _ => exact absurd h (by decide)
  case _ => exact ⟨OctColor.Red, rfl, rfl⟩
  case _ => exact absurd h (by decide)
  case _ => exact ⟨OctColor.Yellow, rfl, rfl⟩
  case _ => exact absurd h (by decide)
  case _ => exact ⟨OctColor.Orange, rfl, rfl⟩
  case _ => exact absurd h (by decide)
  case _ => exact ⟨OctColor.HiZ, rfl, rfl⟩
  case _ => rfl
  case _ => exact absurd h (by decide)
  case _ => rfl
  case _ => exact absurd h (by decide)
  case _ => rfl
  case _ => exact absurd h (by decide)
  case _ => rfl
  case _ => exact absurd h (by decide)
  case _ => rfl
  case _ => exact absurd h (by decide)
  case _ => rfl
  case _ => exact absurd h (by decide)
  case _ => rfl
  case _ => exact absurd h (by decide)
  case _ => rfl
  case _ => exact absurd h (by decide)

theorem from_nibble_low_nibble_only_witness :
    (8 ≤ 31 &&& 0xf ∧ OctColor.from_nibble 31 = Except.error ⟨31 &&& 0xf⟩)
  ∧ (18 &&& 0xf < 8 ∧ ∃ c : OctColor,
      OctColor.from_nibble 18 = Except.ok c ∧ c.get_nibble = 18 &&& 0xf) :=
  ⟨⟨by decide, (from_nibble_low_nibble_only 31).1 (by decide)⟩,
   ⟨by decide, (from_nibble_low_nibble_only 18).2 (by decide)⟩⟩

/-- C8: for a partial-refresh rectangle `(x, y, width, height)` within the
panel's addressing range, the nine `PartialWindow` data bytes encode the
start-column byte `x / 8` (split across the first two bytes), the end-column
byte `(x + width) / 8 - 1` (split across the next two, with the low three
bits forced to 1), and the raw pixel rows `y` and `y + height - 1` as
16-bit values; misaligned `x` is floor-rounded, never rejected: `x = 10`
produces the same command as `x = 8`. -/
theorem partial_window_column_byte_addressing :
    (∀ x y width height : Nat,
      8 ≤ width → x + width ≤ 2048 → 1 ≤ height → y + height ≤ 65536 →
      ((Epd7in5.partial_window_payload x y width height).getD 0 0 * 32
          + (Epd7in5.partial_window_payload x y width height).getD 1 0 / 8
        = x / 8)
      ∧ ((Epd7in5.partial_window_payload x y width height).getD 2 0 * 32
          + (Epd7in5.partial_window_payload x y width height).getD 3 0 / 8
        = (x + width) / 8 - 1)
      ∧ ((Epd7in5.partial_window_payload x y width height).getD 4 0 * 256
          + (Epd7in5.partial_window_payload x y width height).getD 5 0
        = y)
      ∧ ((Epd7in5.partial_window_payload x y width height).getD 6 0 * 256
          + (Epd7in5.partial_window_payload x y width height).getD 7 0
        = y + height - 1))
  ∧ Epd7in5.partial_window_payload 10 0 38 1 = Epd7in5.partial_window_payload 8 0 40 1 := by
  refine ⟨?_, by decide⟩
  intro x y width height hw hxw hh hyh
  unfold Epd7in5.partial_window_payload
  simp only [List.getD_cons_zero, List.getD_cons_succ, Nat.shiftRight_eq_div_pow]
  norm_num
  refine ⟨?_, ?_, ?_, ?_⟩
  · omega
  · have he : (x + width) / 8 - 1 < 256 := by omega
    have h256 : ((x + width) / 8 - 1) * 8 % 256 = 8 * (((x + width) / 8 - 1) % 32) := by omega
    rw [h256, mul8_or_seven _ (by omega)]
    omega
  · omega
  · omega

theorem partial_window_column_byte_addressing_witness :
    (8 ≤ 32 ∧ 16 + 32 ≤ 2048 ∧ 1 ≤ 1 ∧ 0 + 1 ≤ 65536)
  ∧ (((Epd7in5.partial_window_payload 16 0 32 1).getD 0 0 * 32
        + (Epd7in5.partial_window_payload 16 0 32 1).getD 1 0 / 8
      = 16 / 8)
    ∧ ((Epd7in5.partial_window_payload 16 0 32 1).getD 2 0 * 32
        + (Epd7in5.partial_window_payload 16 0 32 1).getD 3 0 / 8
      = (16 + 32) / 8 - 1)
    ∧ ((Epd7in5.partial_window_payload 16 0 32 1).getD 4 0 * 256
        + (Epd7in5.partial_window_payload 16 0 32 1).getD 5 0
      = 0)
    ∧ ((Epd7in5.partial_window_payload 16 0 32 1).getD 6 0 * 256
        + (Epd7in5.partial_window_payload 16 0 32 1).getD 7 0
      = 0 + 1 - 1)) :=
  ⟨⟨by decide, by decide, by decide, by decide⟩,
   partial_window_column_byte_addressing.1 16 0 32 1 (by decide) (by decide) (by decide) (by decide)⟩
